import Mathlib

/-!
Verification development for the sonar-sentry signal-analysis pipeline.

The repository contains two near-identical revisions of one browser
application (`src/app.js` and the unnamed variant `src/unnamed/part_000`).
The algorithmic core — spectral peak extraction (`findPeakFrequency`),
Doppler classification (`runDopplerAnalysis` / `analyseAudio`), baseline
calibration (`calibrate`), chirp synthesis (`generateChirpWAV`) and PCM
sample encoding (`bufferToWave`) — is embedded below over exact rationals.

Modelling conventions:
* JavaScript numbers are modelled as `ℚ`; decibel magnitudes coming from
  `AnalyserNode.getFloatFrequencyData` are modelled as `WithBot ℚ`, since
  that API genuinely produces `-Infinity` for silent bins and the source
  itself uses `-Infinity` as the initial peak sentinel.  A JavaScript
  out-of-bounds array read yields `undefined`, and every numeric `>`
  comparison against `undefined` is false; `binAt` returns an `Option`
  and `peakStep` skips `none`, matching that semantics.
* `Math.sin` composed with the `2·π·(...)` phase factor of the chirp is
  an abstract oscillator parameter `osc : ℚ → ℚ` (the host sine is a
  transcendental float routine); theorems that need it assume only
  `|osc x| ≤ 1`, which `Math.sin` guarantees on finite input.
* The JavaScript `x | 0` coercion is ToInt32: truncation toward zero
  followed by a wrap into the signed 32-bit range (`jsToInt32`).
* The `Rat` arithmetic operations of the library are restored to their
  default reducibility so that concrete runs of the embedded functions
  can be evaluated by `decide`.
-/

set_option allowUnsafeReducibility true in
attribute [semireducible] Rat.mul Rat.add Rat.sub Rat.inv

namespace SonarSentry

/-- Shorthand coercion of a rational decibel value into the magnitude
domain `WithBot ℚ` (where `⊥` plays the role of `-Infinity`). -/
def db (q : ℚ) : WithBot ℚ := (q : WithBot ℚ)

/-- Result record of `findPeakFrequency` (src/app.js line 148):
`{ frequency: peakIndex * binWidth, magnitude: peakMagnitude }`. -/
structure PeakEstimate where
  frequency : ℚ
  magnitude : WithBot ℚ
deriving DecidableEq

/-- JavaScript indexed read `data[i]` on a `Float32Array`: out-of-bounds
or negative indices yield `undefined`, modelled as `none`. -/
def binAt (data : List (WithBot ℚ)) (i : ℤ) : Option (WithBot ℚ) :=
  if i < 0 then none else data.get? i.toNat

/-- The magnitude bin `i` effectively contributes to the running
maximum: an `undefined` read never wins a `>` comparison, which is the
same as contributing `-Infinity`. -/
def binVal (data : List (WithBot ℚ)) (i : ℤ) : WithBot ℚ :=
  (binAt data i).getD ⊥

/-- One iteration of the scan loop of `findPeakFrequency`
(src/app.js lines 141-146): `if (data[i] > peakMagnitude)` then update
the running pair `(peakMagnitude, peakIndex)`.  A comparison against
`undefined` is false in JavaScript, hence `none` leaves the accumulator
unchanged. -/
def peakStep (data : List (WithBot ℚ)) (acc : WithBot ℚ × ℤ) (i : ℤ) :
    WithBot ℚ × ℤ :=
  match binAt data i with
  | none => acc
  | some v => if acc.1 < v then (v, i) else acc

/-- The inclusive integer range `s, s+1, …, e` visited by
`for (let i = startIndex; i <= endIndex; i++)` (empty when `e < s`). -/
def scanRange (s e : ℤ) : List ℤ :=
  (List.range (e + 1 - s).toNat).map (fun k : ℕ => s + (k : ℤ))

/-- `findPeakFrequency` (src/app.js lines 134-149; identical in
src/unnamed/part_000 lines 127-142), parameterised by the bin width
`sampleRate / fftSize` and by the band edges that the source reads from
the globals `CHIRP_START_HZ` / `CHIRP_END_HZ`.  The accumulator starts
at `(-Infinity, -1)`. -/
def findPeakFrequency (binWidth bandStart bandEnd : ℚ)
    (data : List (WithBot ℚ)) : PeakEstimate :=
  let startIndex : ℤ := ⌊bandStart / binWidth⌋
  let endIndex : ℤ := ⌈bandEnd / binWidth⌉
  let r := (scanRange startIndex endIndex).foldl (peakStep data) (⊥, -1)
  ⟨(r.2 : ℚ) * binWidth, r.1⟩

/-- The spec's `MotionVerdict` enumeration.  In the source the verdict
is the status reported by `runDopplerAnalysis`: `insufficientSignal` is
the early return taken while `baselineFrequency` is unset. -/
inductive MotionVerdict where
  | none
  | approaching
  | receding
  | insufficientSignal
deriving DecidableEq

/-- Doppler classification step of `runDopplerAnalysis`
(src/app.js lines 115-132; the same logic appears in `analyseAudio`,
src/unnamed/part_000 lines 98-125).  The source keeps the calibration
state in the single number `baselineFrequency`, initially `0`; the
guard `!baselineFrequency` (resp. `baselineFrequency > 0`) means the
state is uncalibrated exactly when `baselineHz = 0`. -/
def classify (peakFrequency : ℚ) (peakMagnitude : WithBot ℚ)
    (baselineHz motionThresholdHz peakMagnitudeThresholdDb : ℚ) :
    MotionVerdict :=
  if baselineHz = 0 then MotionVerdict.insufficientSignal
  else
    let shift := peakFrequency - baselineHz
    if (peakMagnitudeThresholdDb : WithBot ℚ) < peakMagnitude ∧
        motionThresholdHz < |shift| then
      if 0 < shift then MotionVerdict.approaching else MotionVerdict.receding
    else MotionVerdict.none

/-- `calibrationCycles` of the src/app.js `calibrate` (line 153). -/
def calibrationCycles : ℕ := 10

/-- The `validReadings` list accumulated by the src/app.js `calibrate`
loop (lines 156-167): the peak frequency of each cycle's spectral frame,
kept only when the peak magnitude exceeds
`PEAK_MAGNITUDE_THRESHOLD_DB`.  The function is parameterised by the
frames the analyser returns on the successive cycles. -/
def validReadings (binWidth bandStart bandEnd thresholdDb : ℚ)
    (frames : List (List (WithBot ℚ))) : List ℚ :=
  frames.filterMap (fun f =>
    let peak := findPeakFrequency binWidth bandStart bandEnd f
    if (thresholdDb : WithBot ℚ) < peak.magnitude then some peak.frequency
    else none)

/-- `calibrate` of src/app.js (lines 151-177), as a function of the ten
frames captured on the ten cycles.  `some b` models the success path
(`return true` after writing `baselineFrequency = mean`), `none` models
the failure path (`return false`, baseline left unset).  The source
accepts whenever `validReadings.length >= 3`. -/
def calibrate (binWidth bandStart bandEnd thresholdDb : ℚ)
    (frames : List (List (WithBot ℚ))) : Option ℚ :=
  let valid := validReadings binWidth bandStart bandEnd thresholdDb frames
  if 3 ≤ valid.length then
    some (valid.sum / (valid.length : ℚ))
  else none

/-- `calibrationCycles` of the src/unnamed/part_000 `calibrate`
(line 146). -/
def calibrationCyclesV0 : ℕ := 5

/-- `calibrate` of src/unnamed/part_000 (lines 144-156): it sums the
peak frequency of every cycle — with no magnitude validity test at all —
and always writes `baselineFrequency = totalFrequency / 5`. -/
def calibrate_v0 (binWidth bandStart bandEnd : ℚ)
    (frames : List (List (WithBot ℚ))) : ℚ :=
  (frames.map (fun f =>
    (findPeakFrequency binWidth bandStart bandEnd f).frequency)).sum /
    (calibrationCyclesV0 : ℚ)

/-- `Math.max(-1, Math.min(1, x))` of `bufferToWave`
(src/app.js line 248). -/
def clampSample (x : ℚ) : ℚ := max (-1) (min 1 x)

/-- Truncation toward zero, the rounding performed by the JavaScript
`| 0` coercion before the 32-bit wrap. -/
def ratTrunc (q : ℚ) : ℤ := if q < 0 then ⌈q⌉ else ⌊q⌋

/-- The full ToInt32 conversion performed by `x | 0`: truncate toward
zero, then wrap into `[-2^31, 2^31)`. -/
def jsToInt32 (q : ℚ) : ℤ := (ratTrunc q + 2 ^ 31) % 2 ^ 32 - 2 ^ 31

/-- The per-sample quantization of `bufferToWave` (src/app.js line 249):
`sample = (0.5 + sample < 0 ? sample * 32768 : sample * 32767) | 0`.
JavaScript operator precedence parses the condition as
`(0.5 + sample) < 0`, i.e. the 32768 branch is taken only below `-1/2`,
not below `0`. -/
def quantizeSample (x : ℚ) : ℤ :=
  let s := clampSample x
  jsToInt32 (if 1 / 2 + s < 0 then s * 32768 else s * 32767)

/-- The bytes written by `view.setInt16(pos, v, true)`: the two's
complement 16-bit value, low byte first (little-endian). -/
def leBytes16 (v : ℤ) : List ℕ :=
  [((v % 65536) % 256).toNat, ((v % 65536) / 256).toNat]

/-- The byte stream produced by the sample loop of `bufferToWave`
(src/app.js lines 246-254) for a mono channel: clamp, quantize, write
little-endian 16-bit, one sample after another. -/
def encodeSamples (samples : List ℚ) : List ℕ :=
  samples.flatMap (fun x => leBytes16 (quantizeSample x))

/-- Quantization as the specification words it (claim C5): scale the
clamped value by 32768 when it is negative and by 32767 when it is
non-negative (truncating toward zero as the integer write must).  This
definition follows the spec's words and exists only to be compared with
`quantizeSample`, which is translated from the source. -/
def quantizeSampleSpec (x : ℚ) : ℤ :=
  let s := clampSample x
  if s < 0 then ratTrunc (s * 32768) else ratTrunc (s * 32767)

/-- The spec's `ChirpSpec` record.  src/app.js fixes
`startHz = 2000`, `endHz = 5000`, `durationSec = 0.1`, `gain = 0.8`;
src/unnamed/part_000 fixes `15000`, `18000`, `0.05`, `1`;
`sampleRate` comes from the audio context. -/
structure ChirpSpec where
  startHz : ℚ
  endHz : ℚ
  durationSec : ℚ
  gain : ℚ
  sampleRate : ℚ
deriving DecidableEq

/-- The `ChirpSpec` invariant named by claim C7:
`0 < startHz < endHz`, `durationSec > 0`, `0 ≤ gain ≤ 1`. -/
def ChirpSpec.wellFormed (c : ChirpSpec) : Prop :=
  0 < c.startHz ∧ c.startHz < c.endHz ∧ 0 < c.durationSec ∧
    0 ≤ c.gain ∧ c.gain ≤ 1

instance (c : ChirpSpec) : Decidable c.wellFormed := by
  unfold ChirpSpec.wellFormed
  infer_instance

/-- `numFrames = duration * sampleRate` of `generateChirpWAV`
(src/app.js line 208).  The source never rounds this quantity. -/
def chirpNumFrames (c : ChirpSpec) : ℚ := c.durationSec * c.sampleRate

/-- The chirp phase in cycles at sample index `i`
(src/app.js line 215 computes `2π` times this amount and takes `sin`):
`startHz · t + (endHz − startHz) · t² / (2 · duration)` with
`t = i / sampleRate`. -/
def chirpPhase (c : ChirpSpec) (i : ℕ) : ℚ :=
  let t := (i : ℚ) / c.sampleRate
  c.startHz * t + (c.endHz - c.startHz) * t * t / (2 * c.durationSec)

/-- The multiplicative fade envelope applied by the loop at
src/app.js lines 220-223:
`for (i = 0; i < sampleRate * 0.01; i++)` multiplies `channelData[i]`
and `channelData[numFrames - 1 - i]` by `i / (sampleRate * 0.01)`.
Sample `j` receives the fade-in factor exactly when `j < r` with
`r = sampleRate / 100`, and the fade-out factor exactly when
`numFrames - 1 - j` is a natural number below `r` (a fractional
`numFrames` makes `numFrames - 1 - i` a non-integer property name,
which never aliases an array element). -/
def chirpEnvelope (sampleRate numFrames : ℚ) (j : ℕ) : ℚ :=
  let r := sampleRate * (1 / 100)
  let fadeIn := if (j : ℚ) < r then (j : ℚ) / r else 1
  let d := numFrames - 1 - (j : ℚ)
  let fadeOut := if d.den = 1 ∧ 0 ≤ d ∧ d < r then d / r else 1
  fadeIn * fadeOut

/-- Sample `i` of the synthesized chirp:
`sin(phase) * gain` (src/app.js line 216) times the fade envelope.
`osc` abstracts `x ↦ Math.sin(2·π·x)`. -/
def chirpSample (osc : ℚ → ℚ) (c : ChirpSpec) (i : ℕ) : ℚ :=
  osc (chirpPhase c i) * c.gain * chirpEnvelope c.sampleRate (chirpNumFrames c) i

/-- The sample sequence held by the `AudioBuffer` of `generateChirpWAV`
(src/app.js lines 208-217) after the generation loop.
`createBuffer(1, numFrames, sampleRate)` converts a fractional
`numFrames` by WebIDL unsigned-long truncation, so the `Float32Array`
has `⌊numFrames⌋` slots; the loop `for (i = 0; i < numFrames; i++)`
iterates `⌈numFrames⌉` times, but a final write past the typed array's
end is silently dropped, leaving exactly the first `⌊numFrames⌋`
samples. -/
def chirpSamples (osc : ℚ → ℚ) (c : ChirpSpec) : List ℚ :=
  (List.range ⌊chirpNumFrames c⌋₊).map (chirpSample osc c)

/-- The module state relevant to claim C6: the session flag written by
`startSonar` / `stopSonar`, the `baselineFrequency` global, and the
`validReadings` accumulator local to the in-flight `calibrate` call. -/
structure SonarState where
  isSonarActive : Bool
  baselineFrequency : ℚ
  calibReadings : List ℚ
deriving DecidableEq

/-- The scheduler events that can interleave on the JavaScript event
loop while a `calibrate` call is in flight: a resumed calibration loop
iteration (carrying the frame the analyser returns at that moment), the
code after the loop, and a `stopSonar` click. -/
inductive SonarEvent where
  | calibCycle (frame : List (WithBot ℚ))
  | calibFinish
  | stopClick
deriving DecidableEq

/-- One event of the session, translated from the source.
`calibCycle` is one iteration of the `calibrate` loop
(src/app.js lines 156-167) — it reads the analyser and pushes a valid
reading, with no check of `isSonarActive`.  `calibFinish` is the code
after the loop (lines 169-176) — it writes `baselineFrequency` whenever
at least three readings were collected, again without checking
`isSonarActive`.  `stopClick` is `stopSonar` (lines 90-98) — it clears
the flag and the timers but does not cancel the in-flight `calibrate`. -/
def sonarStep (binWidth bandStart bandEnd thresholdDb : ℚ)
    (st : SonarState) : SonarEvent → SonarState
  | SonarEvent.calibCycle f =>
      let peak := findPeakFrequency binWidth bandStart bandEnd f
      if (thresholdDb : WithBot ℚ) < peak.magnitude then
        { st with calibReadings := st.calibReadings ++ [peak.frequency] }
      else st
  | SonarEvent.calibFinish =>
      if 3 ≤ st.calibReadings.length then
        { st with baselineFrequency :=
            st.calibReadings.sum / (st.calibReadings.length : ℚ) }
      else st
  | SonarEvent.stopClick => { st with isSonarActive := false }

/-- Run of the event-loop schedule. -/
def sonarRun (binWidth bandStart bandEnd thresholdDb : ℚ)
    (st : SonarState) (evts : List SonarEvent) : SonarState :=
  evts.foldl (sonarStep binWidth bandStart bandEnd thresholdDb) st

/-- The state right after `startSonar` has entered calibration:
`isSonarActive = true`, `baselineFrequency = 0`, no readings yet. -/
def calibratingState : SonarState := ⟨true, 0, []⟩

/-- The schedule of an undisturbed calibration: the ten loop
iterations, then the code after the loop. -/
def calibEvents (frames : List (List (WithBot ℚ))) : List SonarEvent :=
  frames.map SonarEvent.calibCycle ++ [SonarEvent.calibFinish]

/-- The schedule in which the user presses stop after `k` calibration
cycles: the remaining iterations and the finish code still run on the
event loop, because `stopSonar` does not cancel the `calibrate`
promise chain. -/
def stoppedEvents (frames : List (List (WithBot ℚ))) (k : ℕ) :
    List SonarEvent :=
  (frames.map SonarEvent.calibCycle).take k ++
    SonarEvent.stopClick ::
      ((frames.map SonarEvent.calibCycle).drop k ++ [SonarEvent.calibFinish])

/-- A frame whose in-band peak is loud: scanning band `[10, 10]` at bin
width `10` visits exactly bin 1, magnitude `-50 dB`. -/
def frameValid : List (WithBot ℚ) := [db (-100), db (-50)]

/-- A frame whose in-band peak is quiet (`-100 dB` everywhere). -/
def frameQuiet : List (WithBot ℚ) := [db (-100), db (-100)]

/-- Ten captured frames of which exactly the first three yield valid
readings at threshold `-60 dB`. -/
def framesThreeValid : List (List (WithBot ℚ)) :=
  [frameValid, frameValid, frameValid] ++ List.replicate 7 frameQuiet

/-- Ten captured frames none of which yields a valid reading. -/
def framesNoneValid : List (List (WithBot ℚ)) :=
  List.replicate 10 frameQuiet

/-- Ten captured frames all of which yield valid readings. -/
def framesAllValid : List (List (WithBot ℚ)) :=
  List.replicate 10 frameValid

/-- A frame for band `[10, 20]` at bin width `10` (bins 1 and 2):
a loud `-50 dB` peak in bin 1 (frequency 10). -/
def frameLoud10 : List (WithBot ℚ) := [db (-100), db (-50), db (-100)]

/-- A frame for band `[10, 20]` at bin width `10`: its peak is bin 2
(frequency 20) at `-90 dB`, below a `-60 dB` validity threshold. -/
def frameQuiet20 : List (WithBot ℚ) := [db (-100), db (-100), db (-90)]

/-- Five calibration frames for the part_000 variant: four valid
readings at frequency 10 and one invalid reading at frequency 20. -/
def framesV0 : List (List (WithBot ℚ)) :=
  [frameLoud10, frameLoud10, frameLoud10, frameLoud10, frameQuiet20]

/-- Frame for claim C4: with bin width 10 and band `[15, 25]` the scan
visits bins 1..3; bin 1 (frequency 10, outside the band) is the loudest
at `-10 dB`, while the only bin whose frequency lies inside the band is
bin 2 (frequency 20) at `-50 dB`. -/
def frameC4a : List (WithBot ℚ) := [db (-100), db (-10), db (-50), db (-100)]

/-- Same as `frameC4a` on every bin whose frequency lies in `[15, 25]`,
but silent in bin 1 (which is outside the band). -/
def frameC4b : List (WithBot ℚ) := [db (-100), db (-100), db (-50), db (-100)]

/-- Same as `frameC4a` on the scanned bins 1..3, but with different
bins outside that index range (bin 0 and a new bin 4). -/
def frameC4c : List (WithBot ℚ) :=
  [db (-7), db (-10), db (-50), db (-100), db (-3)]

/-- A frame with two `-Infinity` bins, as `getFloatFrequencyData`
produces for silence. -/
def frameBots : List (WithBot ℚ) := [⊥, ⊥]

/-- A two-bin frame at a uniform `-50 dB`. -/
def frameFifty : List (WithBot ℚ) := [db (-50), db (-50)]

/-- Claim C7 counterexample spec: `durationSec * sampleRate = 18/5`,
whose truncation (3) differs from its rounding (4). -/
def chirpFractional : ChirpSpec := ⟨100, 200, 1 / 5, 1, 18⟩

/-- Claim C8 counterexample spec: duration `0.1 s` at `48 kHz`
(the src/app.js tuning), so `numFrames = 4800` while the fade loop runs
`480` iterations. -/
def chirpTenth : ChirpSpec := ⟨2000, 5000, 1 / 10, 4 / 5, 48000⟩

/-- A tiny well-formed spec used to witness claim C7: three samples. -/
def chirpTiny : ChirpSpec := ⟨1, 2, 1, 1, 3⟩

/-- The first component of one scan step is the running maximum of the
magnitudes seen so far (an undefined bin contributes `⊥`). -/
lemma peakStep_fst (data : List (WithBot ℚ)) (acc : WithBot ℚ × ℤ) (i : ℤ) :
    (peakStep data acc i).1 = max acc.1 (binVal data i) := by
  unfold peakStep binVal
  cases h : binAt data i with
  | none => simp
  | some v =>
      simp only [Option.getD_some]
      split
      · next hlt => exact (max_eq_right hlt.le).symm
      · next hlt => exact (max_eq_left (not_lt.mp hlt)).symm

/-- The magnitude computed by the scan loop is a fold of `max` over the
visited bins. -/
lemma foldl_peakStep_fst (data : List (WithBot ℚ)) (l : List ℤ) :
    ∀ acc : WithBot ℚ × ℤ,
      (l.foldl (peakStep data) acc).1
        = l.foldl (fun m i => max m (binVal data i)) acc.1 := by
  induction l with
  | nil => intro acc; rfl
  | cons i t ih =>
      intro acc
      simp only [List.foldl_cons]
      rw [ih, peakStep_fst]

/-- The scan loop never moves off an accumulator that already dominates
every visited bin (the update condition is a strict `>`). -/
lemma foldl_peakStep_stay (data : List (WithBot ℚ)) (l : List ℤ) :
    ∀ (m : WithBot ℚ) (j : ℤ), (∀ k ∈ l, binVal data k ≤ m) →
      l.foldl (peakStep data) (m, j) = (m, j) := by
  induction l with
  | nil => intro m j _; rfl
  | cons i t ih =>
      intro m j h
      have hstep : peakStep data (m, j) i = (m, j) := by
        unfold peakStep
        cases hb : binAt data i with
        | none => rfl
        | some v =>
            have hv : v ≤ m := by
              have hmem := h i (List.mem_cons_self i t)
              unfold binVal at hmem
              rw [hb] at hmem
              simpa using hmem
            simp [not_lt.mpr hv]
      simp only [List.foldl_cons, hstep]
      exact ih m j (fun k hk => h k (List.mem_cons_of_mem _ hk))

/-- The scan loop only reads the frame through `binAt` at the visited
indices. -/
lemma foldl_peakStep_congr (d d2 : List (WithBot ℚ)) (l : List ℤ) :
    ∀ acc : WithBot ℚ × ℤ, (∀ i ∈ l, binAt d i = binAt d2 i) →
      l.foldl (peakStep d) acc = l.foldl (peakStep d2) acc := by
  induction l with
  | nil => intro acc _; rfl
  | cons i t ih =>
      intro acc h
      have hstep : peakStep d acc i = peakStep d2 acc i := by
        unfold peakStep
        rw [h i (List.mem_cons_self i t)]
      simp only [List.foldl_cons, hstep]
      exact ih _ (fun k hk => h k (List.mem_cons_of_mem _ hk))

/-- On a strictly increasing index list, the scan loop lands on the
first index achieving the (uniquely attained strict) maximum, provided
that maximum beats the starting accumulator. -/
lemma foldl_peakStep_min (data : List (WithBot ℚ)) :
    ∀ (l : List ℤ), l.Pairwise (· < ·) → ∀ i : ℤ, i ∈ l →
      ∀ acc : WithBot ℚ × ℤ, acc.1 < binVal data i →
        (∀ k ∈ l, binVal data k ≤ binVal data i) →
        (∀ k ∈ l, k < i → binVal data k < binVal data i) →
        l.foldl (peakStep data) acc = (binVal data i, i) := by
  intro l
  induction l with
  | nil => intro _ i hi; cases hi
  | cons a t ih =>
      intro hl i hi acc hacc hmax hmin
      rw [List.pairwise_cons] at hl
      rcases List.mem_cons.mp hi with rfl | hit
      · have hbot : (⊥ : WithBot ℚ) < binVal data i := bot_le.trans_lt hacc
        have hsome : binAt data i = some (binVal data i) := by
          unfold binVal
          cases hb : binAt data i with
          | none =>
              unfold binVal at hbot
              rw [hb] at hbot
              simp at hbot
          | some v => rfl
        have hstep : peakStep data acc i = (binVal data i, i) := by
          unfold peakStep
          rw [hsome]
          simp [hacc]
        simp only [List.foldl_cons, hstep]
        exact foldl_peakStep_stay data t _ _
          (fun k hk => hmax k (List.mem_cons_of_mem _ hk))
      · have ha_lt : a < i := hl.1 i hit
        have hva : binVal data a < binVal data i :=
          hmin a (List.mem_cons_self a t) ha_lt
        have h1 : (peakStep data acc a).1 < binVal data i := by
          rw [peakStep_fst]
          exact max_lt hacc hva
        simp only [List.foldl_cons]
        exact ih hl.2 i hit _ h1
          (fun k hk => hmax k (List.mem_cons_of_mem _ hk))
          (fun k hk => hmin k (List.mem_cons_of_mem _ hk))

/-- The visited index range is strictly increasing. -/
lemma scanRange_pairwise (s e : ℤ) : (scanRange s e).Pairwise (· < ·) := by
  unfold scanRange
  rw [List.pairwise_map]
  exact (List.pairwise_lt_range _).imp (fun h => by omega)

/-- Membership in the visited index range. -/
lemma mem_scanRange {s e i : ℤ} : i ∈ scanRange s e ↔ s ≤ i ∧ i ≤ e := by
  unfold scanRange
  simp only [List.mem_map, List.mem_range]
  constructor
  · rintro ⟨k, hk, rfl⟩
    omega
  · rintro ⟨h1, h2⟩
    exact ⟨(i - s).toNat, by omega, by omega⟩

/-- Claim C1: for every peak estimate, calibration state and threshold
configuration, `classify` returns `InsufficientSignal` when the state is
uncalibrated; otherwise, with `shift = peak.frequencyHz - baselineHz`,
it returns `Approaching` exactly when the magnitude gate and the shift
gate both pass and `shift > 0`, `Receding` exactly when both gates pass
and `shift ≤ 0`, and `None` exactly when some gate fails — in
particular whenever `peak.magnitudeDb ≤ peakMagnitudeThresholdDb`,
however large `|shift|` is. -/
theorem claim_C1_classify (pf : ℚ) (pm : WithBot ℚ) (b mThr magThr : ℚ) :
    (b = 0 → classify pf pm b mThr magThr = MotionVerdict.insufficientSignal) ∧
    (b ≠ 0 →
      ((classify pf pm b mThr magThr = MotionVerdict.approaching ↔
          (magThr : WithBot ℚ) < pm ∧ mThr < |pf - b| ∧ 0 < pf - b) ∧
       (classify pf pm b mThr magThr = MotionVerdict.receding ↔
          (magThr : WithBot ℚ) < pm ∧ mThr < |pf - b| ∧ pf - b ≤ 0) ∧
       (classify pf pm b mThr magThr = MotionVerdict.none ↔
          ¬ ((magThr : WithBot ℚ) < pm ∧ mThr < |pf - b|)) ∧
       (pm ≤ (magThr : WithBot ℚ) →
          classify pf pm b mThr magThr = MotionVerdict.none))) := by
  constructor
  · intro hb
    simp [classify, hb]
  · intro hb
    by_cases hg : (magThr : WithBot ℚ) < pm ∧ mThr < |pf - b|
    · by_cases hs : 0 < pf - b
      · have hcl : classify pf pm b mThr magThr = MotionVerdict.approaching := by
          simp [classify, hb, hg, hs]
        refine ⟨by simp [hcl, hg, hs], by simp [hcl, not_le.mpr hs], ?_, ?_⟩
        · simp [hcl, hg]
        · intro hpm
          exact absurd hg.1 (not_lt.mpr hpm)
      · have hcl : classify pf pm b mThr magThr = MotionVerdict.receding := by
          simp [classify, hb, hg, hs]
        refine ⟨by simp [hcl, hs], by simp [hcl, hg, not_lt.mp hs], ?_, ?_⟩
        · simp [hcl, hg]
        · intro hpm
          exact absurd hg.1 (not_lt.mpr hpm)
    · have hcl : classify pf pm b mThr magThr = MotionVerdict.none := by
        simp [classify, hb, hg]
      refine ⟨?_, ?_, by simp [hcl, hg], fun _ => hcl⟩
      · constructor
        · intro h
          rw [hcl] at h
          simp at h
        · rintro ⟨h1, h2, _⟩
          exact absurd ⟨h1, h2⟩ hg
      · constructor
        · intro h
          rw [hcl] at h
          simp at h
        · rintro ⟨h1, h2, _⟩
          exact absurd ⟨h1, h2⟩ hg

/-- Witness for claim C1 at the spec's own worked examples
(baseline 17000 Hz, motion threshold 25 Hz, magnitude gate −60 dB). -/
theorem claim_C1_classify_witness :
    classify 17040 (db (-50)) 17000 25 (-60) = MotionVerdict.approaching ∧
    classify 16950 (db (-50)) 17000 25 (-60) = MotionVerdict.receding ∧
    classify 17040 (db (-70)) 17000 25 (-60) = MotionVerdict.none ∧
    classify 17040 (db (-50)) 0 25 (-60) = MotionVerdict.insufficientSignal := by
  refine ⟨?_, ?_, ?_, ?_⟩
  · exact ((claim_C1_classify 17040 (db (-50)) 17000 25 (-60)).2
      (by norm_num)).1.mpr (by decide)
  · exact ((claim_C1_classify 16950 (db (-50)) 17000 25 (-60)).2
      (by norm_num)).2.1.mpr (by decide)
  · exact ((claim_C1_classify 17040 (db (-70)) 17000 25 (-60)).2
      (by norm_num)).2.2.2 (by decide)
  · exact (claim_C1_classify 17040 (db (-50)) 0 25 (-60)).1 rfl

/-- Counterexample to claim C2: the src/app.js `calibrate` succeeds
with only 3 valid readings out of 10 cycles (3 is not more than half of
10), writing a baseline — the success condition in the source is the
absolute bound `validReadings.length >= 3`, not a majority. -/
theorem claim_C2_cex :
    framesThreeValid.length = calibrationCycles ∧
    (validReadings 10 10 10 (-60) framesThreeValid).length = 3 ∧
    2 * (validReadings 10 10 10 (-60) framesThreeValid).length ≤
      calibrationCycles ∧
    calibrate 10 10 10 (-60) framesThreeValid = some 10 := by decide

/-- Claim C2 as amended: over the source's 10 calibration cycles,
`calibrate` fails (leaving `baselineHz` unset, modelled as `none`)
exactly when fewer than 3 cycles yield valid readings; in particular
2 valid readings out of 10 fail, but 3, 4 or 5 valid readings out of 10
succeed even though they are not a majority. -/
theorem claim_C2_amended (bw bandLo bandHi thr : ℚ)
    (frames : List (List (WithBot ℚ)))
    (_hlen : frames.length = calibrationCycles) :
    calibrate bw bandLo bandHi thr frames = none ↔
      (validReadings bw bandLo bandHi thr frames).length < 3 := by
  simp only [calibrate]
  split
  · next h =>
      constructor
      · intro heq
        simp at heq
      · intro hlt
        omega
  · next h =>
      simp only [true_iff]
      omega

/-- Witness for the amended claim C2: ten all-quiet frames yield zero
valid readings and calibration fails. -/
theorem claim_C2_amended_witness :
    calibrate 10 10 10 (-60) framesNoneValid = none := by
  exact (claim_C2_amended 10 10 10 (-60) framesNoneValid (by decide)).mpr
    (by decide)

/-- Counterexample to claim C3: the src/unnamed/part_000 `calibrate`
(which always "succeeds") averages the peak frequencies of all five
cycles, so a reading that fails the magnitude test still moves the
baseline: four valid readings at 10 Hz plus one invalid reading at
20 Hz yield baseline 12, not the valid-readings mean 10. -/
theorem claim_C3_cex :
    calibrate_v0 10 10 20 framesV0 = 12 ∧
    (validReadings 10 10 20 (-60) framesV0).sum /
        ((validReadings 10 10 20 (-60) framesV0).length : ℚ) = 10 ∧
    (12 : ℚ) ≠ 10 := by decide

/-- Claim C3 as amended: in the src/app.js variant every successful
`calibrate` run does return the arithmetic mean of exactly the valid
readings (readings failing the magnitude test contribute nothing); the
src/unnamed/part_000 variant instead averages the peak frequencies of
all cycles, valid or not. -/
theorem claim_C3_amended (bw bandLo bandHi thr : ℚ)
    (frames : List (List (WithBot ℚ))) (b : ℚ)
    (hb : calibrate bw bandLo bandHi thr frames = some b) :
    b = (validReadings bw bandLo bandHi thr frames).sum /
        ((validReadings bw bandLo bandHi thr frames).length : ℚ) := by
  simp only [calibrate] at hb
  split at hb
  · exact (Option.some_inj.mp hb).symm
  · cases hb

/-- Witness for the amended claim C3 at a concrete successful run. -/
theorem claim_C3_amended_witness :
    (10 : ℚ) = (validReadings 10 10 10 (-60) framesThreeValid).sum /
        ((validReadings 10 10 10 (-60) framesThreeValid).length : ℚ) := by
  exact claim_C3_amended 10 10 10 (-60) framesThreeValid 10 (by decide)

/-- Counterexample to claim C4: with bin width 10 and band `[15, 25]`
the source scans bins 1..3; the two frames agree on every bin whose
frequency `i · 10` lies inside `[15, 25]` (only bin 2 does), yet
`findPeakFrequency` returns different results, because bin 1 — at
frequency 10, outside the band — is scanned and wins.  So bins outside
the band are not ignored when floor/ceil pulls them into the scanned
index range. -/
theorem claim_C4_cex :
    (∀ i : ℕ, (15 : ℚ) ≤ (i : ℚ) * 10 → (i : ℚ) * 10 ≤ 25 →
        frameC4a.get? i = frameC4b.get? i) ∧
    findPeakFrequency 10 15 25 frameC4a ≠ findPeakFrequency 10 15 25 frameC4b ∧
    findPeakFrequency 10 15 25 frameC4a = ⟨10, db (-10)⟩ ∧
    ¬ ((15 : ℚ) ≤ 10 ∧ (10 : ℚ) ≤ 25) := by
  refine ⟨?_, by decide, by decide, by norm_num⟩
  intro i h1 h2
  have hi2 : i = 2 := by
    have l1 : (1 : ℚ) < (i : ℚ) := by linarith
    have l2 : (i : ℚ) < 3 := by linarith
    have n1 : 1 < i := by exact_mod_cast l1
    have n2 : i < 3 := by exact_mod_cast l2
    omega
  subst hi2
  rfl

/-- Claim C4 as amended: `findPeakFrequency` scans exactly the
inclusive index range `⌊bandStart/binWidth⌋ .. ⌈bandEnd/binWidth⌉`; its
magnitude is the maximum over the bins of that index range (undefined
bins contributing `-Infinity`), and the result depends only on the bins
of that index range — bins outside the *scanned index range* are
ignored however loud they are, but the edge bins of the range may lie
slightly outside the frequency band `[bandStart, bandEnd]` and are not
ignored. -/
theorem claim_C4_amended (bw bandLo bandHi : ℚ) (d d2 : List (WithBot ℚ)) :
    (findPeakFrequency bw bandLo bandHi d).magnitude =
      (scanRange ⌊bandLo / bw⌋ ⌈bandHi / bw⌉).foldl
        (fun m i => max m (binVal d i)) ⊥ ∧
    ((∀ i ∈ scanRange ⌊bandLo / bw⌋ ⌈bandHi / bw⌉, binAt d i = binAt d2 i) →
      findPeakFrequency bw bandLo bandHi d =
        findPeakFrequency bw bandLo bandHi d2) := by
  constructor
  · exact foldl_peakStep_fst d _ _
  · intro h
    simp only [findPeakFrequency]
    rw [foldl_peakStep_congr d d2 _ _ h]

/-- Witness for the amended claim C4: two frames that differ only
outside the scanned index range 1..3 give identical results. -/
theorem claim_C4_amended_witness :
    findPeakFrequency 10 15 25 frameC4a = findPeakFrequency 10 15 25 frameC4c := by
  exact (claim_C4_amended 10 15 25 frameC4a frameC4c).2 (by decide)

/-- Counterexample to claim C9: the empty band `[5, 4]`
(`bandStart > bandEnd`) still floors/ceils to the nonempty index range
0..1, so `findPeakFrequency` returns the real magnitude `-50 dB` — not
the `-Infinity` sentinel — and a downstream `-60 dB` threshold check
accepts it rather than rejecting it. -/
theorem claim_C9_cex :
    ((4 : ℚ) < 5) ∧
    findPeakFrequency 10 5 4 frameFifty = ⟨0, db (-50)⟩ ∧
    db (-50) ≠ (⊥ : WithBot ℚ) ∧
    ((-60 : ℚ) : WithBot ℚ) < (findPeakFrequency 10 5 4 frameFifty).magnitude := by
  decide

/-- Claim C9 as amended: `findPeakFrequency` is total (the embedding is
a total function; a JavaScript out-of-bounds read yields `undefined`,
which never updates the peak), and whenever the scanned index range
`⌊bandStart/binWidth⌋ .. ⌈bandEnd/binWidth⌉` is empty or contains no
in-bounds bin, the result's magnitude is the `-Infinity` sentinel,
which every downstream `magnitude > threshold` check rejects.  An empty
frequency band (`bandStart > bandEnd`) does not by itself guarantee the
sentinel, since floor/ceil can still produce a nonempty index range. -/
theorem claim_C9_amended (bw bandLo bandHi : ℚ) (d : List (WithBot ℚ))
    (h : ∀ i ∈ scanRange ⌊bandLo / bw⌋ ⌈bandHi / bw⌉, binAt d i = none) :
    (findPeakFrequency bw bandLo bandHi d).magnitude = ⊥ ∧
    ∀ t : ℚ, ¬ ((t : WithBot ℚ) < (findPeakFrequency bw bandLo bandHi d).magnitude) := by
  have hstay : (scanRange ⌊bandLo / bw⌋ ⌈bandHi / bw⌉).foldl
      (peakStep d) (⊥, -1) = (⊥, -1) :=
    foldl_peakStep_stay d _ ⊥ (-1) (fun k hk => by simp [binVal, h k hk])
  constructor
  · simp only [findPeakFrequency]
    rw [hstay]
  · intro t
    simp only [findPeakFrequency]
    rw [hstay]
    exact not_lt_bot

/-- Witness for the amended claim C9: band `[30, 40]` scans bins 3..4,
entirely beyond a two-bin frame, and the sentinel comes back. -/
theorem claim_C9_amended_witness :
    (findPeakFrequency 10 30 40 frameFifty).magnitude = ⊥ := by
  exact (claim_C9_amended 10 30 40 frameFifty (by decide)).1

/-- Counterexample to claim C10: on a frame whose scanned bins are all
`-Infinity` (as `getFloatFrequencyData` reports for silence), bins 0
and 1 share the maximum magnitude, yet the result's frequency is
`-10 = (-1) · binWidth` — the `peakIndex = -1` sentinel — not the
frequency of the lowest-index maximal bin. -/
theorem claim_C10_cex :
    binVal frameBots 0 = ⊥ ∧ binVal frameBots 1 = ⊥ ∧
    scanRange ⌊(0 : ℚ) / 10⌋ ⌈(10 : ℚ) / 10⌉ = [0, 1] ∧
    (∀ k ∈ scanRange ⌊(0 : ℚ) / 10⌋ ⌈(10 : ℚ) / 10⌉,
        binVal frameBots k ≤ binVal frameBots 0) ∧
    findPeakFrequency 10 0 10 frameBots = ⟨-10, ⊥⟩ ∧
    ((-10 : ℚ) ≠ 0 * 10 ∧ (-10 : ℚ) ≠ 1 * 10) := by decide

/-- Claim C10 as amended: the running peak is replaced only by a
strictly greater magnitude, so among bins sharing a maximum that is
strictly above `-Infinity` the lowest-index one is returned, with the
shared maximum as magnitude; when every scanned bin is `-Infinity` (or
out of bounds) the accumulator never moves and the sentinel index `-1`
(frequency `-binWidth`) is returned instead. -/
theorem claim_C10_amended (bw bandLo bandHi : ℚ) (d : List (WithBot ℚ)) (i : ℤ)
    (hmem : i ∈ scanRange ⌊bandLo / bw⌋ ⌈bandHi / bw⌉)
    (hpos : ⊥ < binVal d i)
    (hmax : ∀ k ∈ scanRange ⌊bandLo / bw⌋ ⌈bandHi / bw⌉, binVal d k ≤ binVal d i)
    (hleast : ∀ k ∈ scanRange ⌊bandLo / bw⌋ ⌈bandHi / bw⌉,
        k < i → binVal d k < binVal d i) :
    findPeakFrequency bw bandLo bandHi d = ⟨(i : ℚ) * bw, binVal d i⟩ := by
  simp only [findPeakFrequency]
  rw [foldl_peakStep_min d _ (scanRange_pairwise _ _) i hmem (⊥, -1) hpos hmax hleast]

/-- Witness for the amended claim C10: in `frameC4a` the maximum over
scanned bins 1..3 is attained only at bin 1 and is returned. -/
theorem claim_C10_amended_witness :
    findPeakFrequency 10 15 25 frameC4a = ⟨(1 : ℚ) * 10, binVal frameC4a 1⟩ := by
  exact claim_C10_amended 10 15 25 frameC4a 1 (by decide) (by decide)
    (by decide) (by decide)

/-- Integer bounds transfer through truncation toward zero. -/
lemma ratTrunc_bounds {q : ℚ} {lo hi : ℤ} (h1 : (lo : ℚ) ≤ q)
    (h2 : q ≤ (hi : ℚ)) : lo ≤ ratTrunc q ∧ ratTrunc q ≤ hi := by
  unfold ratTrunc
  split
  · refine ⟨?_, Int.ceil_le.mpr h2⟩
    calc lo = ⌈(lo : ℚ)⌉ := (Int.ceil_intCast lo).symm
      _ ≤ ⌈q⌉ := Int.ceil_le_ceil h1
  · refine ⟨Int.le_floor.mpr h1, ?_⟩
    calc ⌊q⌋ ≤ ⌊(hi : ℚ)⌋ := Int.floor_le_floor h2
      _ = hi := Int.floor_intCast hi

/-- Within the 16-bit range (a fortiori within the signed 32-bit range)
the ToInt32 wrap is the identity on the truncation. -/
lemma jsToInt32_eq_ratTrunc {q : ℚ} (h1 : -32768 ≤ ratTrunc q)
    (h2 : ratTrunc q ≤ 32768) : jsToInt32 q = ratTrunc q := by
  unfold jsToInt32
  have hp : (2 : ℤ) ^ 31 = 2147483648 := by norm_num
  have hq : (2 : ℤ) ^ 32 = 4294967296 := by norm_num
  have h3 : 0 ≤ ratTrunc q + 2 ^ 31 := by omega
  have h4 : ratTrunc q + 2 ^ 31 < 2 ^ 32 := by omega
  rw [Int.emod_eq_of_lt h3 h4]
  omega

/-- Counterexample to claim C5: at input `-1/2` the source quantizes to
`-16383` (it scales by 32767, because the JavaScript condition
`0.5 + sample < 0` puts the 32768 branch below `-1/2`, not below `0`),
while the claim's negative-scales-by-32768 rule demands `-16384`; the
emitted little-endian bytes differ accordingly. -/
theorem claim_C5_cex :
    quantizeSample (-(1 / 2)) = -16383 ∧
    quantizeSampleSpec (-(1 / 2)) = -16384 ∧
    encodeSamples [-(1 / 2)] ≠ leBytes16 (quantizeSampleSpec (-(1 / 2))) := by
  decide

/-- Claim C5 as amended: the encoder writes, little-endian, the signed
16-bit integer obtained by clamping the sample to `[-1, 1]` and then
scaling by 32768 when the clamped value is below `-1/2` and by 32767
otherwise (truncating toward zero); `-1` still maps to `-32768` and
`+1` to `32767`, and every output lies in `[-32768, 32767]`. -/
theorem claim_C5_amended (x : ℚ) :
    encodeSamples [x] =
      leBytes16 (if clampSample x < -(1 / 2) then ratTrunc (clampSample x * 32768)
        else ratTrunc (clampSample x * 32767)) ∧
    -32768 ≤ quantizeSample x ∧ quantizeSample x ≤ 32767 ∧
    quantizeSample (-1) = -32768 ∧ quantizeSample 1 = 32767 := by
  have hc1 : -1 ≤ clampSample x := le_max_left _ _
  have hc2 : clampSample x ≤ 1 := max_le (by norm_num) (min_le_left _ _)
  have hquant : quantizeSample x =
      (if clampSample x < -(1 / 2) then ratTrunc (clampSample x * 32768)
        else ratTrunc (clampSample x * 32767)) ∧
      -32768 ≤ quantizeSample x ∧ quantizeSample x ≤ 32767 := by
    simp only [quantizeSample]
    by_cases hlt : clampSample x < -(1 / 2)
    · have hcond : 1 / 2 + clampSample x < 0 := by linarith
      rw [if_pos hcond, if_pos hlt]
      have hv1 : ((-32768 : ℤ) : ℚ) ≤ clampSample x * 32768 := by
        push_cast
        linarith
      have hv2 : clampSample x * 32768 ≤ ((0 : ℤ) : ℚ) := by
        push_cast
        linarith
      obtain ⟨hb1, hb2⟩ := ratTrunc_bounds hv1 hv2
      rw [jsToInt32_eq_ratTrunc (by omega) (by omega)]
      exact ⟨rfl, by omega, by omega⟩
    · have hcond : ¬ (1 / 2 + clampSample x < 0) := by
        push_neg at hlt ⊢
        linarith
      rw [if_neg hcond, if_neg hlt]
      have hv1 : ((-16384 : ℤ) : ℚ) ≤ clampSample x * 32767 := by
        push_cast
        push_neg at hlt
        linarith
      have hv2 : clampSample x * 32767 ≤ ((32767 : ℤ) : ℚ) := by
        push_cast
        linarith
      obtain ⟨hb1, hb2⟩ := ratTrunc_bounds hv1 hv2
      rw [jsToInt32_eq_ratTrunc (by omega) (by omega)]
      exact ⟨rfl, by omega, by omega⟩
  have henc : encodeSamples [x] = leBytes16 (quantizeSample x) := by
    simp [encodeSamples]
  refine ⟨?_, hquant.2.1, hquant.2.2, by decide, by decide⟩
  rw [henc, hquant.1]

/-- `validReadings` unfolds one cycle at a time. -/
lemma validReadings_cons (bw bandLo bandHi thr : ℚ) (f : List (WithBot ℚ))
    (fs : List (List (WithBot ℚ))) :
    validReadings bw bandLo bandHi thr (f :: fs) =
      (if (thr : WithBot ℚ) < (findPeakFrequency bw bandLo bandHi f).magnitude
        then [(findPeakFrequency bw bandLo bandHi f).frequency] else []) ++
        validReadings bw bandLo bandHi thr fs := by
  by_cases h : (thr : WithBot ℚ) < (findPeakFrequency bw bandLo bandHi f).magnitude
  · simp [validReadings, List.filterMap_cons, h]
  · simp [validReadings, List.filterMap_cons, h]

/-- Runs split across concatenated schedules. -/
lemma sonarRun_append (bw bandLo bandHi thr : ℚ) (st : SonarState)
    (l1 l2 : List SonarEvent) :
    sonarRun bw bandLo bandHi thr st (l1 ++ l2) =
      sonarRun bw bandLo bandHi thr (sonarRun bw bandLo bandHi thr st l1) l2 := by
  simp [sonarRun, List.foldl_append]

/-- The session flag is read by no event and written only by
`stopClick`: over a stop-free schedule, runs started with different
flag values differ in the flag alone. -/
lemma sonarRun_flag (bw bandLo bandHi thr : ℚ) :
    ∀ (evts : List SonarEvent), SonarEvent.stopClick ∉ evts →
      ∀ (st : SonarState) (fl : Bool),
        sonarRun bw bandLo bandHi thr { st with isSonarActive := fl } evts =
          { sonarRun bw bandLo bandHi thr st evts with isSonarActive := fl } := by
  intro evts
  induction evts with
  | nil =>
      intro _ st fl
      rfl
  | cons ev t ih =>
      intro hmem st fl
      have hev : ev ≠ SonarEvent.stopClick := fun h =>
        hmem (h ▸ List.mem_cons_self ev t)
      have ht : SonarEvent.stopClick ∉ t := fun h =>
        hmem (List.mem_cons_of_mem _ h)
      have hstep : sonarStep bw bandLo bandHi thr { st with isSonarActive := fl } ev =
          { sonarStep bw bandLo bandHi thr st ev with isSonarActive := fl } := by
        cases ev with
        | calibCycle f =>
            cases st
            simp only [sonarStep]
            split
            · rfl
            · rfl
        | calibFinish =>
            cases st
            simp only [sonarStep]
            split
            · rfl
            · rfl
        | stopClick => exact absurd rfl hev
      show sonarRun bw bandLo bandHi thr
          (sonarStep bw bandLo bandHi thr { st with isSonarActive := fl } ev) t =
        { sonarRun bw bandLo bandHi thr (sonarStep bw bandLo bandHi thr st ev) t with
            isSonarActive := fl }
      rw [hstep]
      exact ih ht _ fl

/-- Running the calibration-cycle events appends exactly the valid
readings of the consumed frames to the accumulator. -/
lemma sonarRun_cycles (bw bandLo bandHi thr : ℚ) :
    ∀ (frames : List (List (WithBot ℚ))) (st : SonarState),
      sonarRun bw bandLo bandHi thr st (frames.map SonarEvent.calibCycle) =
        { st with calibReadings :=
            st.calibReadings ++ validReadings bw bandLo bandHi thr frames } := by
  intro frames
  induction frames with
  | nil =>
      intro st
      cases st
      simp [sonarRun, validReadings]
  | cons f fs ih =>
      intro st
      have hstep : sonarStep bw bandLo bandHi thr st (SonarEvent.calibCycle f) =
          { st with calibReadings := st.calibReadings ++
              (if (thr : WithBot ℚ) < (findPeakFrequency bw bandLo bandHi f).magnitude
                then [(findPeakFrequency bw bandLo bandHi f).frequency] else []) } := by
        cases st
        simp only [sonarStep]
        split
        · rfl
        · simp
      show sonarRun bw bandLo bandHi thr
          (sonarStep bw bandLo bandHi thr st (SonarEvent.calibCycle f))
          (fs.map SonarEvent.calibCycle) =
        { st with calibReadings :=
            st.calibReadings ++ validReadings bw bandLo bandHi thr (f :: fs) }
      rw [hstep, ih, validReadings_cons]
      cases st
      simp [List.append_assoc]

/-- A stopped schedule's tail (remaining cycles plus the finish step)
contains no stop event. -/
lemma stopClick_not_mem_tail (frames : List (List (WithBot ℚ))) (k : ℕ) :
    SonarEvent.stopClick ∉
      ((frames.map SonarEvent.calibCycle).drop k ++ [SonarEvent.calibFinish]) := by
  intro h
  rcases List.mem_append.mp h with h1 | h1
  · have h2 := List.mem_of_mem_drop h1
    rcases List.mem_map.mp h2 with ⟨f, _, heq⟩
    exact SonarEvent.noConfusion heq
  · exact SonarEvent.noConfusion (List.mem_singleton.mp h1)

/-- Counterexample to claim C6: with ten valid frames, stopping after
two calibration cycles reaches Idle (`isSonarActive = false`,
`baselineFrequency` still 0), yet the in-flight calibration finishes
afterwards and writes `baselineFrequency = 10` while the session is
Idle — `stopSonar` clears the timers but never cancels the `calibrate`
promise chain, whose loop and final write do not check
`isSonarActive`. -/
theorem claim_C6_cex :
    (sonarRun 10 10 10 (-60) calibratingState
        ((stoppedEvents framesAllValid 2).take 3)).isSonarActive = false ∧
    (sonarRun 10 10 10 (-60) calibratingState
        ((stoppedEvents framesAllValid 2).take 3)).baselineFrequency = 0 ∧
    (sonarRun 10 10 10 (-60) calibratingState
        (stoppedEvents framesAllValid 2)).isSonarActive = false ∧
    (sonarRun 10 10 10 (-60) calibratingState
        (stoppedEvents framesAllValid 2)).baselineFrequency = 10 ∧
    (10 : ℚ) ≠ 0 := by decide

/-- Claim C6 as amended: stopping during calibration only clears the
session flag and timers; the in-flight `calibrate` continues
unaffected — wherever the stop is inserted, the final
`baselineFrequency` equals that of the undisturbed calibration run,
and in particular, whenever at least three of the ten frames yield
valid readings, the aborted calibration still writes the mean of the
valid readings to `CalibrationState` after Idle has been reached. -/
theorem claim_C6_amended (bw bandLo bandHi thr : ℚ)
    (frames : List (List (WithBot ℚ))) (k : ℕ) :
    (sonarRun bw bandLo bandHi thr calibratingState
        (stoppedEvents frames k)).isSonarActive = false ∧
    (sonarRun bw bandLo bandHi thr calibratingState
        (stoppedEvents frames k)).baselineFrequency =
      (sonarRun bw bandLo bandHi thr calibratingState
        (calibEvents frames)).baselineFrequency ∧
    (3 ≤ (validReadings bw bandLo bandHi thr frames).length →
      (sonarRun bw bandLo bandHi thr calibratingState
          (stoppedEvents frames k)).baselineFrequency =
        (validReadings bw bandLo bandHi thr frames).sum /
          ((validReadings bw bandLo bandHi thr frames).length : ℚ)) := by
  have key : sonarRun bw bandLo bandHi thr calibratingState (stoppedEvents frames k) =
      { sonarRun bw bandLo bandHi thr calibratingState (calibEvents frames) with
          isSonarActive := false } := by
    unfold stoppedEvents
    rw [sonarRun_append]
    show sonarRun bw bandLo bandHi thr
        { sonarRun bw bandLo bandHi thr calibratingState
            ((frames.map SonarEvent.calibCycle).take k) with isSonarActive := false }
        ((frames.map SonarEvent.calibCycle).drop k ++ [SonarEvent.calibFinish]) = _
    rw [sonarRun_flag bw bandLo bandHi thr _ (stopClick_not_mem_tail frames k) _ false]
    rw [← sonarRun_append, ← List.append_assoc, List.take_append_drop]
    rfl
  refine ⟨by rw [key], by rw [key], ?_⟩
  intro h3
  rw [key]
  show (sonarRun bw bandLo bandHi thr calibratingState (calibEvents frames)).baselineFrequency = _
  unfold calibEvents
  rw [sonarRun_append, sonarRun_cycles]
  show (sonarStep bw bandLo bandHi thr _ SonarEvent.calibFinish).baselineFrequency = _
  simp only [sonarStep, calibratingState, List.nil_append]
  rw [if_pos h3]

/-- Witness for the amended claim C6 on a concrete all-valid run
stopped after two cycles. -/
theorem claim_C6_amended_witness :
    (sonarRun 10 10 10 (-60) calibratingState
        (stoppedEvents framesAllValid 2)).baselineFrequency =
      (validReadings 10 10 10 (-60) framesAllValid).sum /
        ((validReadings 10 10 10 (-60) framesAllValid).length : ℚ) := by
  exact (claim_C6_amended 10 10 10 (-60) framesAllValid 2).2.2 (by decide)

/-- A fade-in factor `if num < r then num / r else 1` lies in `[0, 1]`
for non-negative `num`. -/
lemma fade_factor_mem (num r : ℚ) (hnum : 0 ≤ num) :
    0 ≤ (if num < r then num / r else 1) ∧
      (if num < r then num / r else 1) ≤ 1 := by
  split
  · next h =>
      have hr : (0 : ℚ) < r := lt_of_le_of_lt hnum h
      exact ⟨div_nonneg hnum hr.le, (div_le_one hr).mpr h.le⟩
  · next => exact ⟨zero_le_one, le_refl 1⟩

/-- The fade-out factor lies in `[0, 1]` (its own guard supplies the
non-negativity). -/
lemma fadeOut_factor_mem (d r : ℚ) :
    0 ≤ (if d.den = 1 ∧ 0 ≤ d ∧ d < r then d / r else 1) ∧
      (if d.den = 1 ∧ 0 ≤ d ∧ d < r then d / r else 1) ≤ 1 := by
  split
  · next h =>
      have hr : (0 : ℚ) < r := lt_of_le_of_lt h.2.1 h.2.2
      exact ⟨div_nonneg h.2.1 hr.le, (div_le_one hr).mpr h.2.2.le⟩
  · next => exact ⟨zero_le_one, le_refl 1⟩

/-- The fade envelope always lies in `[0, 1]`. -/
lemma chirpEnvelope_mem (sr nf : ℚ) (j : ℕ) :
    0 ≤ chirpEnvelope sr nf j ∧ chirpEnvelope sr nf j ≤ 1 := by
  simp only [chirpEnvelope]
  obtain ⟨ha1, ha2⟩ := fade_factor_mem (j : ℚ) (sr * (1 / 100)) (Nat.cast_nonneg j)
  obtain ⟨hb1, hb2⟩ := fadeOut_factor_mem (nf - 1 - (j : ℚ)) (sr * (1 / 100))
  exact ⟨mul_nonneg ha1 hb1, mul_le_one₀ ha2 hb1 hb2⟩

/-- Counterexample to claim C7: the well-formed spec with
`durationSec = 1/5` and `sampleRate = 18` has `numFrames = 18/5`;
`createBuffer` truncates that to a 3-sample buffer (and the generation
loop's 4th write is dropped past the typed array's end), while
`round(durationSec · sampleRate) = 4` — the source never rounds the
frame count. -/
theorem claim_C7_cex :
    chirpFractional.wellFormed ∧
    (chirpSamples (fun _ => 0) chirpFractional).length = 3 ∧
    round (chirpNumFrames chirpFractional) = 4 ∧
    (chirpSamples (fun _ => 0) chirpFractional).length ≠
      (round (chirpNumFrames chirpFractional)).toNat := by
  refine ⟨by decide, by decide, by decide, by decide⟩

/-- Claim C7 as amended: for every `ChirpSpec` satisfying its invariant
and every bounded oscillator, the synthesized buffer has length
`⌊durationSec · sampleRate⌋` — `createBuffer` truncates a fractional
frame count, which agrees with `round(durationSec · sampleRate)`
exactly when the product is an integer, as it is for the source's
constants at standard rates — and every sample lies in `[-1, 1]`. -/
theorem claim_C7_amended (c : ChirpSpec) (osc : ℚ → ℚ)
    (hosc : ∀ q : ℚ, |osc q| ≤ 1) (hc : c.wellFormed) :
    (chirpSamples osc c).length = ⌊chirpNumFrames c⌋₊ ∧
    ∀ y ∈ chirpSamples osc c, -1 ≤ y ∧ y ≤ 1 := by
  constructor
  · simp [chirpSamples]
  · intro y hy
    simp only [chirpSamples, List.mem_map] at hy
    obtain ⟨i, _, rfl⟩ := hy
    obtain ⟨he1, he2⟩ := chirpEnvelope_mem c.sampleRate (chirpNumFrames c) i
    have hg1 : 0 ≤ c.gain := hc.2.2.2.1
    have hg2 : c.gain ≤ 1 := hc.2.2.2.2
    have habs : |chirpSample osc c i| ≤ 1 := by
      unfold chirpSample
      rw [abs_mul, abs_mul]
      rw [abs_of_nonneg hg1, abs_of_nonneg he1]
      have hcore : |osc (chirpPhase c i)| * c.gain ≤ 1 :=
        mul_le_one₀ (hosc (chirpPhase c i)) hg1 hg2
      exact mul_le_one₀ hcore he1 he2
    exact abs_le.mp habs

/-- Witness for the amended claim C7 on a tiny three-sample spec. -/
theorem claim_C7_amended_witness :
    (chirpSamples (fun _ => 0) chirpTiny).length = ⌊chirpNumFrames chirpTiny⌋₊ := by
  exact (claim_C7_amended chirpTiny (fun _ => 0)
    (fun q => by norm_num) (by decide)).1

/-- Counterexample to claim C8: for the src/app.js tuning
(`0.1 s` at 48 kHz) the claimed ramp length is 1% of the total duration
(`48` samples), so sample 100 should be at full envelope; but the
source ramps over `sampleRate * 0.01 = 480` samples — 1% of one second,
i.e. 10% of this chirp — and the envelope at sample 100 is `5/24`. -/
theorem claim_C8_cex :
    chirpTenth.wellFormed ∧
    chirpTenth.durationSec * chirpTenth.sampleRate * (1 / 100) ≤ (100 : ℚ) ∧
    (100 : ℚ) ≤ chirpNumFrames chirpTenth - 1 -
      chirpTenth.durationSec * chirpTenth.sampleRate * (1 / 100) ∧
    chirpEnvelope chirpTenth.sampleRate (chirpNumFrames chirpTenth) 100 = 5 / 24 ∧
    (5 / 24 : ℚ) ≠ 1 := by decide

/-- Claim C8 as amended: the envelope ramps linearly from 0 to full
over the first `sampleRate/100` samples — 1% of one second of audio,
independent of `durationSec` (it equals 1% of the total duration only
when `durationSec = 1`) — stays at full amplitude in between, and
falls symmetrically over the last `sampleRate/100` samples: the
fade-out factor at index `N - 1 - j` equals the fade-in factor at
index `j`. -/
theorem claim_C8_amended (sr : ℚ) (N j : ℕ) (hsr : 0 < sr) :
    ((j : ℚ) < sr * (1 / 100) → sr * (1 / 100) ≤ (N : ℚ) - 1 - (j : ℚ) →
      chirpEnvelope sr (N : ℚ) j = (j : ℚ) / (sr * (1 / 100))) ∧
    (sr * (1 / 100) ≤ (j : ℚ) → sr * (1 / 100) ≤ (N : ℚ) - 1 - (j : ℚ) →
      chirpEnvelope sr (N : ℚ) j = 1) ∧
    ((j : ℚ) < sr * (1 / 100) → sr * (1 / 100) ≤ (N : ℚ) - 1 - (j : ℚ) →
      chirpEnvelope sr (N : ℚ) (N - 1 - j) = (j : ℚ) / (sr * (1 / 100))) := by
  have hr : (0 : ℚ) < sr * (1 / 100) := by positivity
  refine ⟨?_, ?_, ?_⟩
  · intro h1 h2
    simp only [chirpEnvelope]
    rw [if_pos h1, if_neg ?_, mul_one]
    rintro ⟨_, _, hlt⟩
    linarith
  · intro h1 h2
    simp only [chirpEnvelope]
    rw [if_neg (not_lt.mpr h1), if_neg ?_, mul_one]
    rintro ⟨_, _, hlt⟩
    linarith
  · intro h1 h2
    have hjN : ((j : ℕ) : ℚ) + 1 < (N : ℚ) := by linarith
    have hjN' : j + 1 ≤ N := by
      have hq : ((j + 1 : ℕ) : ℚ) < ((N : ℕ) : ℚ) := by push_cast; linarith
      exact (Nat.cast_lt.mp hq).le
    have hcast : ((N - 1 - j : ℕ) : ℚ) = (N : ℚ) - 1 - (j : ℚ) := by
      have hsub : N - 1 - j = N - (1 + j) := by omega
      rw [hsub, Nat.cast_sub (by omega)]
      push_cast
      ring
    simp only [chirpEnvelope]
    rw [hcast]
    have hd : (N : ℚ) - 1 - ((N : ℚ) - 1 - (j : ℚ)) = (j : ℚ) := by ring
    rw [hd]
    rw [if_neg (not_lt.mpr h2), if_pos ⟨by simp, Nat.cast_nonneg j, h1⟩, one_mul]

/-- Witness for the amended claim C8: at 100 Hz sample rate over a
10-sample buffer, sample 5 sits between the two one-sample ramps and
carries the full envelope. -/
theorem claim_C8_amended_witness :
    chirpEnvelope 100 ((10 : ℕ) : ℚ) 5 = 1 := by
  exact (claim_C8_amended 100 10 5 (by norm_num)).2.1 (by push_cast; norm_num)
    (by push_cast; norm_num)

end SonarSentry
